import Mathlib

/-!
Shallow embedding of the pngme chunk codec (src/chunk_type.rs, src/chunk.rs).

Bytes are modelled as `Nat` values (meaningful when `< 256`); `u32` values
as `Nat` reduced `% 2^32` where the Rust code can overflow.  Rust functions
that can panic (out-of-bounds slicing, `unwrap`) are modelled as
`Option`-returning functions where `none` means the Rust code panics;
a `some` result is the value the Rust code returns.
-/

/-- ASCII `u8::is_ascii_alphabetic`. -/
def isAsciiAlphabetic (b : Nat) : Bool :=
  (65 ≤ b && b ≤ 90) || (97 ≤ b && b ≤ 122)

/-- ASCII `u8::is_ascii_alphanumeric`. -/
def isAsciiAlphanumeric (b : Nat) : Bool :=
  isAsciiAlphabetic b || (48 ≤ b && b ≤ 57)

/-- ASCII `u8::is_ascii_graphic` (printable, excluding space): `0x21..=0x7E`. -/
def isAsciiGraphic (b : Nat) : Bool :=
  33 ≤ b && b ≤ 126

/-- Rust `u32::from_be_bytes [b0,b1,b2,b3]`. -/
def u32FromBeBytes (b0 b1 b2 b3 : Nat) : Nat :=
  (b0 % 256) * 16777216 + (b1 % 256) * 65536 + (b2 % 256) * 256 + b3 % 256

/-- Rust `u32::to_be_bytes`. -/
def u32ToBeBytes (n : Nat) : List Nat :=
  [n / 16777216 % 256, n / 65536 % 256, n / 256 % 256, n % 256]

/-- UTF-8 encoding of the Unicode scalar `b` obtained from a `u8` by
`b as char` (Rust): one byte below 0x80, two bytes for 0x80..=0xFF. -/
def utf8OfByteChar (b : Nat) : List Nat :=
  if b < 128 then [b] else [192 + b / 64, 128 + b % 64]

/-- The byte content of the Rust `String` collected from the chars
`chars.map (· as char)`. -/
def strBytes (chars : List Nat) : List Nat :=
  (chars.map utf8OfByteChar).flatten

/-- Whether byte index `i` is a char boundary of the string whose chars are
`chars` (Rust `str::is_char_boundary`; the index one past the end counts). -/
def isCharBoundary : List Nat → Nat → Bool
  | _, 0 => true
  | [], _ + 1 => false
  | c :: rest, i + 1 =>
    let k := (utf8OfByteChar c).length
    if i + 1 < k then false else isCharBoundary rest (i + 1 - k)

/-- Rust string byte-slicing `s[a..b]`: `some` of the byte range when both
ends are char boundaries and `a ≤ b`, `none` when Rust panics. -/
def strByteSlice (chars : List Nat) (a b : Nat) : Option (List Nat) :=
  if a ≤ b && isCharBoundary chars a && isCharBoundary chars b then
    some (((strBytes chars).drop a).take (b - a))
  else
    none

/-- CRC-32/CKSUM single bit step: shift left one bit, xor the polynomial
`0x04C11DB7` when the top bit was set (width 32, not reflected). -/
def crcBit (c : Nat) : Nat :=
  if c < 2147483648 then (c * 2) % 4294967296
  else ((c * 2) ^^^ 79764919) % 4294967296

/-- Iterate `crcBit` `n` times. -/
def crcBits : Nat → Nat → Nat
  | 0, c => c
  | n + 1, c => crcBits n (crcBit c)

/-- CRC-32/CKSUM of a byte sequence, as computed by
`Crc::<u32>::new(&CRC_32_CKSUM).checksum`: poly `0x04C11DB7`, init 0,
no reflection, final xor `0xFFFFFFFF`. -/
def crc32Cksum (data : List Nat) : Nat :=
  (data.foldl (fun c b => crcBits 8 (c ^^^ ((b % 256) * 16777216))) 0) ^^^ 4294967295

/-- Rust `ChunkType` (src/chunk_type.rs): a `u32` code. -/
structure ChunkType where
  chunk_type_code : Nat
deriving DecidableEq, Repr

/-- Rust `ChunkType::bytes`: `chunk_type_code.to_be_bytes()`. -/
def ChunkType.bytes (ct : ChunkType) : List Nat :=
  u32ToBeBytes ct.chunk_type_code

/-- Rust `ChunkType::is_valid`: every byte of the code is ASCII alphabetic. -/
def ChunkType.is_valid (ct : ChunkType) : Bool :=
  ct.bytes.all isAsciiAlphabetic

/-- Rust `ChunkType::is_critical`: `bytes()[0] & 0b0001_0000 == 0` (the source
masks with `0b0001_0000`, i.e. 16). -/
def ChunkType.is_critical (ct : ChunkType) : Bool :=
  (ct.bytes.getD 0 0) &&& 16 == 0

/-- Rust `ChunkType::is_public`: `bytes()[1] & 0b0001_0000 == 0`. -/
def ChunkType.is_public (ct : ChunkType) : Bool :=
  (ct.bytes.getD 1 0) &&& 16 == 0

/-- Rust `ChunkType::is_reserved_bit_valid`: `bytes()[2] & 0b0001_0000 == 0`. -/
def ChunkType.is_reserved_bit_valid (ct : ChunkType) : Bool :=
  (ct.bytes.getD 2 0) &&& 16 == 0

/-- Rust `ChunkType::is_safe_to_copy`: `bytes()[3] & 0b0001_0000 == 0`. -/
def ChunkType.is_safe_to_copy (ct : ChunkType) : Bool :=
  (ct.bytes.getD 3 0) &&& 16 == 0

/-- Rust `<ChunkType as FromStr>::from_str` over the bytes of the string: copies the
first 4 bytes (panicking, `none`, when fewer than 4 are present), builds the
code with `from_be_bytes`, and returns `Err ()` unless `is_valid`. -/
def ChunkType.fromStr : List Nat → Option (Except Unit ChunkType)
  | b0 :: b1 :: b2 :: b3 :: _ =>
    let ct : ChunkType := ⟨u32FromBeBytes b0 b1 b2 b3⟩
    if ct.is_valid then some (Except.ok ct) else some (Except.error ())
  | _ => none

/-- Rust `<ChunkType as Display>::fmt`: the char values pushed to the output, in
order: bytes at shifts 0,8,16,24 of the code, masked to 8 bits, reversed. -/
def ChunkType.render (ct : ChunkType) : List Nat :=
  (([0, 8, 16, 24].map fun i => (ct.chunk_type_code >>> i) &&& 255)).reverse

/-- The bytes of `chunk_type.to_string()` (UTF-8 of the rendered chars). -/
def ChunkType.toStringBytes (ct : ChunkType) : List Nat :=
  strBytes ct.render

/-- Rust `Chunk` (src/chunk.rs). -/
structure Chunk where
  len : Nat
  chuck_type : ChunkType
  chunk_data : List Nat
  crc : Nat
deriving DecidableEq, Repr

/-- The trimming loop in `Chunk::new`: pop trailing bytes while the last
byte is not ASCII graphic. -/
def trimTrailingNonGraphic (l : List Nat) : List Nat :=
  (l.reverse.dropWhile fun b => !isAsciiGraphic b).reverse

/-- Rust `Chunk::crc` (the method): CRC-32/CKSUM over the bytes of
`chuck_type.to_string()` followed by `chunk_data`. -/
def Chunk.crcMethod (c : Chunk) : Nat :=
  crc32Cksum (c.chuck_type.toStringBytes ++ c.chunk_data)

/-- Rust `Chunk::new`: trims trailing non-graphic bytes from the payload, stores
the trimmed data, its length as `u32`, and the CRC computed by `crc()`. -/
def Chunk.new (chunk_type : ChunkType) (data : List Nat) : Chunk :=
  let trimmed := trimTrailingNonGraphic data
  let ret : Chunk := ⟨trimmed.length % 4294967296, chunk_type, trimmed, 0⟩
  ⟨ret.len, ret.chuck_type, ret.chunk_data, Chunk.crcMethod ret⟩

/-- Rust `Chunk::data_as_string`: always `Ok`, keeping only ASCII alphanumeric
bytes and spaces (the char values of the returned text). -/
def Chunk.data_as_string (c : Chunk) : Except Unit (List Nat) :=
  Except.ok (c.chunk_data.filter fun b => isAsciiAlphanumeric b || b == 32)

/-- Rust `Chunk::as_bytes`: returns only `chunk_data`. -/
def Chunk.as_bytes (c : Chunk) : List Nat :=
  c.chunk_data

/-- Rust `<Chunk as TryFrom<&[u8]>>::try_from`. `none` models a panic:
`value[..4]` on fewer than 4 bytes, the string slice `val_str[4..8]` out of
range or off a char boundary, `ChunkType::from_str(..).unwrap()` on an
invalid tag, or `value[8..]` on fewer than 8 bytes.  On `some`, the stored
fields are: the declared big-endian length from bytes [0,4), the parsed tag,
all of `value[8..]` as data, and the CRC of the whole input buffer. -/
def Chunk.tryFrom (value : List Nat) : Option Chunk :=
  if value.length < 4 then none
  else
    let slice_end := value.length - 4
    let val_chars := value.take slice_end
    match strByteSlice val_chars 4 8 with
    | none => none
    | some tagBytes =>
      match ChunkType.fromStr tagBytes with
      | some (Except.ok ct) =>
        if value.length < 8 then none
        else
          some ⟨u32FromBeBytes (value.getD 0 0) (value.getD 1 0)
                  (value.getD 2 0) (value.getD 3 0),
                ct, value.drop 8, crc32Cksum value⟩
      | _ => none

/-! ## Theorems about the code as written -/

/-- Claim C1: decoding never verifies the trailing checksum.  The 12-byte
buffer with length 0, tag "RuSt" and trailing checksum field 0 is accepted
by `Chunk.tryFrom` although the CRC-32 of the tag bytes (there is no payload
per the declared length) differs from the value 0 of the trailing field. -/
theorem chunk_tryFrom_ignores_checksum :
    crc32Cksum [82, 117, 83, 116] ≠ u32FromBeBytes 0 0 0 0 ∧
    (Chunk.tryFrom [0, 0, 0, 0, 82, 117, 83, 116, 0, 0, 0, 0]).isSome = true := by
  constructor
  · decide
  · rfl

/-- Claim C2: `Chunk.new` does not store the payload as given: for the
valid tag "RuSt" (code `0x52755374`) and payload `[0]` (one non-graphic
byte) the stored data is empty and the stored length is 0, not 1. -/
theorem chunk_new_trims_payload :
    (Chunk.new ⟨0x52755374⟩ [0]).chunk_data = [] ∧
    (Chunk.new ⟨0x52755374⟩ [0]).len = 0 := by
  constructor <;> rfl

/-- Claim C3: the encode/decode round trip fails.  `Chunk.as_bytes` emits
only the payload, so decoding the encoding of `Chunk.new ⟨"RuSt"⟩ "abcd"`
panics (`none`) instead of returning an equal chunk. -/
theorem chunk_encode_decode_fails :
    Chunk.tryFrom ((Chunk.new ⟨0x52755374⟩ [97, 98, 99, 100]).as_bytes) = none := by
  rfl

/-- Claim C4: decoding enforces no length consistency.  A 52-byte buffer
declaring length 42 but carrying only 40 payload bytes is accepted,
not rejected with a length mismatch. -/
theorem chunk_tryFrom_ignores_declared_length :
    (Chunk.tryFrom ([0, 0, 0, 42] ++ [82, 117, 83, 116] ++
        List.replicate 40 97 ++ [0, 0, 0, 0])).isSome = true := by
  rfl

/-- Claim C5: a buffer of fewer than 12 bytes makes decoding panic
(modelled `none`) from out-of-range slicing, rather than return a typed
`TruncatedInput` result: shown on the empty buffer and an 11-byte buffer. -/
theorem chunk_tryFrom_panics_on_short_input :
    Chunk.tryFrom [] = none ∧
    Chunk.tryFrom [0, 0, 0, 0, 0, 0, 0, 0, 0, 0, 0] = none := by
  constructor <;> rfl

/-- Claim C6: `Chunk.data_as_string` filters the payload instead of
returning it unchanged: on the all-ASCII (hence valid UTF-8) payload
"a!b" it returns "ab", dropping the punctuation byte 33. -/
theorem chunk_data_as_string_filters :
    Chunk.data_as_string ⟨3, ⟨0x52755374⟩, [97, 33, 98], 0⟩ = Except.ok [97, 98] ∧
    [97, 98] ≠ [97, 33, 98] := by
  constructor
  · rfl
  · decide

/-- Claim C7: the flag accessors mask with bit 4 (16), not bit 5 (32), and
`is_safe_to_copy` tests the bit clear, not set.  For the tag "RuSt":
bit 5 of byte 0 (82) is clear yet `is_critical` returns `false`, and
bit 5 of byte 3 (116) is set yet `is_safe_to_copy` returns `false`. -/
theorem chunkType_flags_use_bit4 :
    82 &&& 32 = 0 ∧ ChunkType.is_critical ⟨0x52755374⟩ = false ∧
    116 &&& 32 = 32 ∧ ChunkType.is_safe_to_copy ⟨0x52755374⟩ = false := by
  refine ⟨by decide, rfl, by decide, rfl⟩

/-! ## Helper lemmas -/

/-- Big-endian round trip: extracting the bytes of `u32FromBeBytes` gives
back the inputs reduced mod 256. -/
theorem u32ToBeBytes_fromBeBytes (b0 b1 b2 b3 : Nat) :
    u32ToBeBytes (u32FromBeBytes b0 b1 b2 b3) =
      [b0 % 256, b1 % 256, b2 % 256, b3 % 256] := by
  simp only [u32ToBeBytes, u32FromBeBytes, List.cons.injEq, and_true]
  omega

/-- An ASCII alphabetic byte is below 128. -/
theorem lt_128_of_isAsciiAlphabetic {b : Nat} (h : isAsciiAlphabetic b = true) :
    b < 128 := by
  simp only [isAsciiAlphabetic, Bool.or_eq_true, Bool.and_eq_true,
    decide_eq_true_eq] at h
  omega

/-- Validity of a code built from four bytes checks exactly those bytes. -/
theorem is_valid_fromBe (b0 b1 b2 b3 : Nat) (h0 : b0 < 256) (h1 : b1 < 256)
    (h2 : b2 < 256) (h3 : b3 < 256) :
    ChunkType.is_valid ⟨u32FromBeBytes b0 b1 b2 b3⟩ =
      [b0, b1, b2, b3].all isAsciiAlphabetic := by
  simp only [ChunkType.is_valid, ChunkType.bytes, u32ToBeBytes_fromBeBytes,
    Nat.mod_eq_of_lt h0, Nat.mod_eq_of_lt h1, Nat.mod_eq_of_lt h2,
    Nat.mod_eq_of_lt h3]

/-- Rendering a code displays its big-endian bytes in order. -/
theorem render_eq_beBytes (n : Nat) :
    ChunkType.render ⟨n⟩ = u32ToBeBytes n := by
  show [(n >>> 24) &&& 255, (n >>> 16) &&& 255, (n >>> 8) &&& 255,
        (n >>> 0) &&& 255] = _
  have h255 : ∀ x : Nat, x &&& 255 = x % 256 := fun x =>
    Nat.and_pow_two_sub_one_eq_mod x 8
  simp only [Nat.shiftRight_eq_div_pow, u32ToBeBytes, h255]
  norm_num

/-- Claim C8: for a string of at least 4 bytes, the text constructor fails
(with the tag-invalid error) exactly when one of the first 4 bytes is not an
ASCII letter, and succeeds otherwise. -/
theorem chunkType_fromStr_validates (s : List Nat) (h4 : 4 ≤ s.length)
    (hb : ∀ b ∈ s.take 4, b < 256) :
    (ChunkType.fromStr s = some (Except.error ()) ↔
      ∃ b ∈ s.take 4, isAsciiAlphabetic b = false) ∧
    ((∀ b ∈ s.take 4, isAsciiAlphabetic b = true) →
      ∃ ct, ChunkType.fromStr s = some (Except.ok ct)) := by
  rcases s with _ | ⟨b0, s⟩
  · simp at h4
  rcases s with _ | ⟨b1, s⟩
  · simp at h4
  rcases s with _ | ⟨b2, s⟩
  · simp at h4
  rcases s with _ | ⟨b3, rest⟩
  · simp at h4
  have ht : (b0 :: b1 :: b2 :: b3 :: rest).take 4 = [b0, b1, b2, b3] := rfl
  rw [ht] at hb ⊢
  have h0 : b0 < 256 := hb b0 (by simp)
  have h1 : b1 < 256 := hb b1 (by simp)
  have h2 : b2 < 256 := hb b2 (by simp)
  have h3 : b3 < 256 := hb b3 (by simp)
  have hv := is_valid_fromBe b0 b1 b2 b3 h0 h1 h2 h3
  by_cases hall : ∀ b ∈ [b0, b1, b2, b3], isAsciiAlphabetic b = true
  · have hv2 : ChunkType.is_valid ⟨u32FromBeBytes b0 b1 b2 b3⟩ = true := by
      rw [hv, List.all_eq_true]; exact hall
    refine ⟨⟨fun he => ?_, fun ⟨b, hbm, hbf⟩ => ?_⟩,
      fun _ => ⟨⟨u32FromBeBytes b0 b1 b2 b3⟩, ?_⟩⟩
    · simp [ChunkType.fromStr, hv2] at he
    · rw [hall b hbm] at hbf; cases hbf
    · simp [ChunkType.fromStr, hv2]
  · have hv2 : ChunkType.is_valid ⟨u32FromBeBytes b0 b1 b2 b3⟩ = false := by
      rw [hv, List.all_eq_false]
      push_neg at hall
      obtain ⟨b, hbm, hbf⟩ := hall
      exact ⟨b, hbm, by simpa using hbf⟩
    refine ⟨⟨fun _ => ?_, fun _ => ?_⟩, fun h => absurd h hall⟩
    · push_neg at hall
      obtain ⟨b, hbm, hbf⟩ := hall
      exact ⟨b, hbm, by simpa using hbf⟩
    · simp [ChunkType.fromStr, hv2]

/-- Claim C8 witness: "Ru1t" is rejected with the tag-invalid error and
"RuSt" is accepted. -/
theorem chunkType_fromStr_validates_witness :
    ChunkType.fromStr [82, 117, 49, 116] = some (Except.error ()) ∧
    ∃ ct, ChunkType.fromStr [82, 117, 83, 116] = some (Except.ok ct) :=
  ⟨(chunkType_fromStr_validates [82, 117, 49, 116] (by decide) (by decide)).1.mpr
      (by decide),
   (chunkType_fromStr_validates [82, 117, 83, 116] (by decide) (by decide)).2
      (by decide)⟩

/-- Claim C9: rendering inverts the text constructor: for a string of at
least 4 bytes whose first 4 bytes are ASCII letters, the constructed tag
renders to exactly those first 4 characters in order. -/
theorem chunkType_render_leftInverse (s : List Nat) (h4 : 4 ≤ s.length)
    (ha : ∀ b ∈ s.take 4, isAsciiAlphabetic b = true) :
    ∃ ct, ChunkType.fromStr s = some (Except.ok ct) ∧ ct.render = s.take 4 := by
  rcases s with _ | ⟨b0, s⟩
  · simp at h4
  rcases s with _ | ⟨b1, s⟩
  · simp at h4
  rcases s with _ | ⟨b2, s⟩
  · simp at h4
  rcases s with _ | ⟨b3, rest⟩
  · simp at h4
  have ht : (b0 :: b1 :: b2 :: b3 :: rest).take 4 = [b0, b1, b2, b3] := rfl
  rw [ht] at ha ⊢
  have h0 : b0 < 128 := lt_128_of_isAsciiAlphabetic (ha b0 (by simp))
  have h1 : b1 < 128 := lt_128_of_isAsciiAlphabetic (ha b1 (by simp))
  have h2 : b2 < 128 := lt_128_of_isAsciiAlphabetic (ha b2 (by simp))
  have h3 : b3 < 128 := lt_128_of_isAsciiAlphabetic (ha b3 (by simp))
  have hv2 : ChunkType.is_valid ⟨u32FromBeBytes b0 b1 b2 b3⟩ = true := by
    rw [is_valid_fromBe b0 b1 b2 b3 (by omega) (by omega) (by omega) (by omega),
      List.all_eq_true]
    exact ha
  refine ⟨⟨u32FromBeBytes b0 b1 b2 b3⟩, by simp [ChunkType.fromStr, hv2], ?_⟩
  rw [render_eq_beBytes, u32ToBeBytes_fromBeBytes]
  simp [Nat.mod_eq_of_lt (by omega : b0 < 256), Nat.mod_eq_of_lt (by omega : b1 < 256),
    Nat.mod_eq_of_lt (by omega : b2 < 256), Nat.mod_eq_of_lt (by omega : b3 < 256)]

/-- Claim C9 witness: the tag built from "RuSt" renders back to "RuSt". -/
theorem chunkType_render_leftInverse_witness :
    ∃ ct, ChunkType.fromStr [82, 117, 83, 116] = some (Except.ok ct) ∧
      ct.render = [82, 117, 83, 116] := by
  have h := chunkType_render_leftInverse [82, 117, 83, 116] (by decide) (by decide)
  simpa using h

/-- Byte index 0 is always a char boundary. -/
theorem isCharBoundary_zero (l : List Nat) : isCharBoundary l 0 = true := by
  cases l <;> rfl

/-- A char below 128 contributes one byte and shifts boundary indices by 1. -/
theorem isCharBoundary_cons_of_lt (c : Nat) (l : List Nat) (hc : c < 128) (i : Nat) :
    isCharBoundary (c :: l) (i + 1) = isCharBoundary l i := by
  simp [isCharBoundary, utf8OfByteChar, hc]

/-- A char below 128 contributes exactly its own byte to the string. -/
theorem strBytes_cons_of_lt (c : Nat) (l : List Nat) (hc : c < 128) :
    strBytes (c :: l) = c :: strBytes l := by
  simp [strBytes, utf8OfByteChar, hc]

/-- Slicing bytes [4,8) of a string whose first 8 chars are single-byte
gives chars 4..7, whatever follows. -/
theorem strByteSlice_ascii8 (c0 c1 c2 c3 c4 c5 c6 c7 : Nat) (l : List Nat)
    (h0 : c0 < 128) (h1 : c1 < 128) (h2 : c2 < 128) (h3 : c3 < 128)
    (h4 : c4 < 128) (h5 : c5 < 128) (h6 : c6 < 128) (h7 : c7 < 128) :
    strByteSlice (c0 :: c1 :: c2 :: c3 :: c4 :: c5 :: c6 :: c7 :: l) 4 8 =
      some [c4, c5, c6, c7] := by
  have hb4 : isCharBoundary (c0 :: c1 :: c2 :: c3 :: c4 :: c5 :: c6 :: c7 :: l) 4
      = true := by
    rw [show (4 : Nat) = 3 + 1 from rfl, isCharBoundary_cons_of_lt _ _ h0,
      show (3 : Nat) = 2 + 1 from rfl, isCharBoundary_cons_of_lt _ _ h1,
      show (2 : Nat) = 1 + 1 from rfl, isCharBoundary_cons_of_lt _ _ h2,
      show (1 : Nat) = 0 + 1 from rfl, isCharBoundary_cons_of_lt _ _ h3]
    rfl
  have hb8 : isCharBoundary (c0 :: c1 :: c2 :: c3 :: c4 :: c5 :: c6 :: c7 :: l) 8
      = true := by
    rw [show (8 : Nat) = 7 + 1 from rfl, isCharBoundary_cons_of_lt _ _ h0,
      show (7 : Nat) = 6 + 1 from rfl, isCharBoundary_cons_of_lt _ _ h1,
      show (6 : Nat) = 5 + 1 from rfl, isCharBoundary_cons_of_lt _ _ h2,
      show (5 : Nat) = 4 + 1 from rfl, isCharBoundary_cons_of_lt _ _ h3,
      show (4 : Nat) = 3 + 1 from rfl, isCharBoundary_cons_of_lt _ _ h4,
      show (3 : Nat) = 2 + 1 from rfl, isCharBoundary_cons_of_lt _ _ h5,
      show (2 : Nat) = 1 + 1 from rfl, isCharBoundary_cons_of_lt _ _ h6,
      show (1 : Nat) = 0 + 1 from rfl, isCharBoundary_cons_of_lt _ _ h7]
    exact isCharBoundary_zero l
  have hsb : strBytes (c0 :: c1 :: c2 :: c3 :: c4 :: c5 :: c6 :: c7 :: l)
      = c0 :: c1 :: c2 :: c3 :: c4 :: c5 :: c6 :: c7 :: strBytes l := by
    rw [strBytes_cons_of_lt _ _ h0, strBytes_cons_of_lt _ _ h1,
      strBytes_cons_of_lt _ _ h2, strBytes_cons_of_lt _ _ h3,
      strBytes_cons_of_lt _ _ h4, strBytes_cons_of_lt _ _ h5,
      strBytes_cons_of_lt _ _ h6, strBytes_cons_of_lt _ _ h7]
  simp [strByteSlice, hb4, hb8, hsb]

/-- Claim C10 (amended): for a byte buffer of length at least 12 whose
length-field bytes [0,4) are below 128 and whose tag bytes [4,8) are ASCII
alphabetic, decoding succeeds and stores all of `b[8..]` (including the
4 trailing checksum bytes, so `b.length - 8` bytes in all, regardless of the
declared length) as data, and the CRC-32/CKSUM of the whole buffer as crc. -/
theorem chunk_tryFrom_lenient (b : List Nat) (h12 : 12 ≤ b.length)
    (hby : ∀ x ∈ b, x < 256)
    (hlo : ∀ x ∈ b.take 4, x < 128)
    (htg : ∀ x ∈ (b.drop 4).take 4, isAsciiAlphabetic x = true) :
    ∃ c, Chunk.tryFrom b = some c ∧
      c.chunk_data = b.drop 8 ∧
      c.chunk_data.length = b.length - 8 ∧
      c.crc = crc32Cksum b := by
  rcases b with _ | ⟨b0, b⟩
  · simp at h12
  rcases b with _ | ⟨b1, b⟩
  · simp at h12
  rcases b with _ | ⟨b2, b⟩
  · simp at h12
  rcases b with _ | ⟨b3, b⟩
  · simp at h12
  rcases b with _ | ⟨b4, b⟩
  · simp at h12
  rcases b with _ | ⟨b5, b⟩
  · simp at h12
  rcases b with _ | ⟨b6, b⟩
  · simp at h12
  rcases b with _ | ⟨b7, rest⟩
  · simp at h12
  have hrl : 4 ≤ rest.length := by
    simp only [List.length_cons] at h12
    omega
  have h0 : b0 < 128 := hlo b0 (by simp)
  have h1 : b1 < 128 := hlo b1 (by simp)
  have h2 : b2 < 128 := hlo b2 (by simp)
  have h3 : b3 < 128 := hlo b3 (by simp)
  have ha4 : isAsciiAlphabetic b4 = true := htg b4 (by simp)
  have ha5 : isAsciiAlphabetic b5 = true := htg b5 (by simp)
  have ha6 : isAsciiAlphabetic b6 = true := htg b6 (by simp)
  have ha7 : isAsciiAlphabetic b7 = true := htg b7 (by simp)
  have h4 : b4 < 128 := lt_128_of_isAsciiAlphabetic ha4
  have h5 : b5 < 128 := lt_128_of_isAsciiAlphabetic ha5
  have h6 : b6 < 128 := lt_128_of_isAsciiAlphabetic ha6
  have h7 : b7 < 128 := lt_128_of_isAsciiAlphabetic ha7
  have hvc : (b0 :: b1 :: b2 :: b3 :: b4 :: b5 :: b6 :: b7 :: rest).take
      ((b0 :: b1 :: b2 :: b3 :: b4 :: b5 :: b6 :: b7 :: rest).length - 4) =
      b0 :: b1 :: b2 :: b3 :: b4 :: b5 :: b6 :: b7 ::
        rest.take (rest.length - 4) := by
    have hL : (b0 :: b1 :: b2 :: b3 :: b4 :: b5 :: b6 :: b7 :: rest).length - 4
        = (rest.length - 4) + 8 := by
      simp only [List.length_cons]
      omega
    rw [hL]
    simp [List.take_succ_cons]
  have hslice : strByteSlice ((b0 :: b1 :: b2 :: b3 :: b4 :: b5 :: b6 :: b7 ::
      rest).take ((b0 :: b1 :: b2 :: b3 :: b4 :: b5 :: b6 :: b7 ::
      rest).length - 4)) 4 8 = some [b4, b5, b6, b7] := by
    rw [hvc]
    exact strByteSlice_ascii8 b0 b1 b2 b3 b4 b5 b6 b7 _ h0 h1 h2 h3 h4 h5 h6 h7
  have hfs : ChunkType.fromStr [b4, b5, b6, b7] =
      some (Except.ok ⟨u32FromBeBytes b4 b5 b6 b7⟩) := by
    have hv2 : ChunkType.is_valid ⟨u32FromBeBytes b4 b5 b6 b7⟩ = true := by
      rw [is_valid_fromBe b4 b5 b6 b7 (by omega) (by omega) (by omega) (by omega),
        List.all_eq_true]
      simp [ha4, ha5, ha6, ha7]
    simp [ChunkType.fromStr, hv2]
  refine ⟨⟨u32FromBeBytes b0 b1 b2 b3, ⟨u32FromBeBytes b4 b5 b6 b7⟩, rest,
    crc32Cksum (b0 :: b1 :: b2 :: b3 :: b4 :: b5 :: b6 :: b7 :: rest)⟩,
    ?_, rfl, by simp, rfl⟩
  simp only [Chunk.tryFrom, hslice, hfs]
  have hnot4 : ¬ ((b0 :: b1 :: b2 :: b3 :: b4 :: b5 :: b6 :: b7 ::
      rest).length < 4) := by simp
  have hnot8 : ¬ ((b0 :: b1 :: b2 :: b3 :: b4 :: b5 :: b6 :: b7 ::
      rest).length < 8) := by simp
  rw [if_neg hnot4, if_neg hnot8]
  rfl

/-- Claim C10 counterexample: the 12-byte buffer starting with the
non-ASCII length byte 128 has ASCII-alphabetic bytes [4,8) ("RuSt"), yet
decoding does not succeed — the multi-byte UTF-8 expansion of byte 128
shifts the string slice `val_str[4..8]`, whose bytes are then an invalid
tag, and the `unwrap` panics (`none`). -/
theorem chunk_tryFrom_lenient_counterexample :
    (12 : Nat) ≤ ([128, 0, 0, 0, 82, 117, 83, 116, 0, 0, 0, 0] : List Nat).length ∧
    ((([128, 0, 0, 0, 82, 117, 83, 116, 0, 0, 0, 0] : List Nat).drop 4).take 4).all
      isAsciiAlphabetic = true ∧
    Chunk.tryFrom [128, 0, 0, 0, 82, 117, 83, 116, 0, 0, 0, 0] = none := by
  refine ⟨by decide, by decide, ?_⟩
  rfl

/-- Claim C10 witness: on a concrete well-formed 12-byte buffer with
length field 0, tag "RuSt" and 4 trailing bytes, decoding succeeds and
stores the last 4 bytes as data and the CRC of the whole buffer. -/
theorem chunk_tryFrom_lenient_witness :
    ∃ c, Chunk.tryFrom [0, 0, 0, 0, 82, 117, 83, 116, 1, 2, 3, 4] = some c ∧
      c.chunk_data = [1, 2, 3, 4] ∧ c.chunk_data.length = 4 ∧
      c.crc = crc32Cksum [0, 0, 0, 0, 82, 117, 83, 116, 1, 2, 3, 4] := by
  have h := chunk_tryFrom_lenient [0, 0, 0, 0, 82, 117, 83, 116, 1, 2, 3, 4]
    (by decide) (by decide) (by decide) (by decide)
  simpa using h
